import Mathlib

/-!
# Verification of the fully connected operator (`fully_connect_op-inl.h`)

Shallow embedding of `src/operator/static_operator/fully_connect_op-inl.h`:
the `FullyConnectOp` runtime methods (`Forward`, `Backward`) and the
`FullyConnectSymbol` symbolic methods (`InferShape`,
`DeclareBackwardDependency`, `BackwardInplaceOption`).

Modelling conventions:
* tensor elements (C++ `real_t`) are modelled by an arbitrary commutative
  ring `R` (the operator performs only additions and multiplications, so
  its value-level claims are ring identities); concrete witnesses
  instantiate `R := ℤ`;
* an n-dimensional buffer (`TBlob`) is a shape (list of extents) plus its
  flat element list;
* a fatal `CHECK_*` failure (dmlc logging) is modelled by the method
  returning `none`; an out-of-bounds `std::vector` access is likewise
  modelled as failure;
* methods that mutate buffers in place are modelled by returning the new
  buffer list (`Forward` returns the new output list, `Backward` the new
  input-gradient list, `InferShape` the new shape vectors paired with the
  C++ boolean return value);
* the mshadow tensor-algebra collaborator (matrix product, transposed
  product, row replication, row summation), which the specification places
  outside this core, is given its standard mathematical semantics on
  rectangular lists of lists.
-/

namespace MxNet

/-- A vector of tensor elements. -/
abbrev Vec (R : Type) := List R

/-- A 2-D matrix of tensor elements, as a list of rows. -/
abbrev Mat (R : Type) := List (List R)

/-- A tensor shape: the ordered list of extents.  The wholly unknown shape
(C++ `TShape` with `ndim() == 0`) is the empty list. -/
abbrev TShape := List ℕ

/-- The wholly unknown shape (`ndim() == 0`). -/
def unknownShape : TShape := []

/-- An n-dimensional buffer: a shape together with the flat list of its
elements in row-major order (C++ `TBlob`). -/
structure TBlob (R : Type) where
  shape : TShape
  data : List R
deriving DecidableEq, Repr

instance {R : Type} : Inhabited (TBlob R) := ⟨⟨[], []⟩⟩

/-- Modelled from the spec: the `WriteMode` enum consumed from the engine
(C++ `OpReqType`, declared in `mxnet/operator.h`, which is not part of this
core): `Overwrite` (`kWriteTo`), `AccumulateAdd` (`kAddTo`), `WriteInPlace`
(`kWriteInplace`). -/
inductive OpReqType where
  | kWriteTo
  | kWriteInplace
  | kAddTo
deriving DecidableEq, Repr

/-- Modelled from the spec: the layer configuration parsed by the shared
parameter mechanism (`param.h`, not part of this core): a hidden-unit count
and a "no bias" flag (`0` = has bias, nonzero = no bias). -/
structure Param where
  num_hidden : ℕ
  no_bias : ℕ
deriving DecidableEq, Repr

variable {R : Type} [CommRing R]

/-! ## External tensor-algebra collaborator (mshadow) -/

/-- Dot product of two vectors. -/
def vdot (u v : Vec R) : R := (List.zipWith (fun a b => a * b) u v).sum

/-- Embedding of `dot(a, b.T())`: the matrix product of `a` with the transpose of `b`;
entry `(i, j)` is the dot product of row `i` of `a` with row `j` of `b`. -/
def matMulNT (a b : Mat R) : Mat R :=
  a.map (fun ar => b.map (fun br => vdot ar br))

/-- Embedding of `dot(a.T(), b)`: the matrix product of the transpose of `a` with `b`;
entry `(i, j)` sums `a[r][i] * b[r][j]` over the common row index `r`. -/
def matMulTN (a b : Mat R) : Mat R :=
  (List.range (a.headD []).length).map (fun i =>
    (List.range (b.headD []).length).map (fun j =>
      (List.zipWith (fun ar br => ar.getD i 0 * br.getD j 0) a b).sum))

/-- Embedding of `dot(a, b)`: the plain matrix product; entry `(i, j)` sums
`a[i][k] * b[k][j]` over `k`. -/
def matMulNN (a b : Mat R) : Mat R :=
  a.map (fun ar =>
    (List.range (b.headD []).length).map (fun j =>
      (List.zipWith (fun x br => x * br.getD j 0) ar b).sum))

/-- Embedding of `repmat(v, n)`: the matrix with `n` identical rows `v`. -/
def repmat (v : Vec R) (n : ℕ) : Mat R := List.replicate n v

/-- Embedding of `sum_rows(m)`: the per-column sums of `m` (a vector with one entry per
column). -/
def sum_rows (m : Mat R) : Vec R :=
  (List.range (m.headD []).length).map (fun j =>
    (m.map (fun r => r.getD j 0)).sum)

/-- Pointwise sum of two vectors. -/
def vecAdd (u v : Vec R) : Vec R := List.zipWith (fun a b => a + b) u v

/-- Pointwise sum of two matrices. -/
def matAdd (a b : Mat R) : Mat R := List.zipWith vecAdd a b

/-! ## Buffer views -/

/-- Split a flat list into `r` rows of `c` elements each. -/
def chunkRows : ℕ → ℕ → List R → Mat R
  | 0, _, _ => []
  | r + 1, c, xs => xs.take c :: chunkRows r c (xs.drop c)

/-- Embedding of `TBlob::FlatTo2D`: view a buffer as a 2-D matrix whose row count is the
leading extent and whose column count is the product of the remaining
extents. -/
def FlatTo2D (t : TBlob R) : Mat R :=
  chunkRows (t.shape.headD 0) t.shape.tail.prod t.data

/-- Embedding of `TBlob::get<xpu, 2>`: view a buffer as a 2-D matrix; requires the shape
to have exactly two extents. -/
def get2 (t : TBlob R) : Option (Mat R) :=
  match t.shape with
  | [r, c] => some (chunkRows r c t.data)
  | _ => none

/-- Embedding of `TBlob::get<xpu, 1>`: view a buffer as a vector; requires the shape to
have exactly one extent. -/
def get1 (t : TBlob R) : Option (Vec R) :=
  match t.shape with
  | [n] => some (t.data.take n)
  | _ => none

/-- Modelled from the spec: the `Assign` write-combine helper
(`static_operator_common.h`, not part of this core), applying a write mode
to a matrix destination: `Overwrite` and `WriteInPlace` replace the
destination contents, `AccumulateAdd` adds into them. -/
def Assign (dst : Mat R) (req : OpReqType) (src : Mat R) : Mat R :=
  match req with
  | OpReqType.kAddTo => matAdd dst src
  | _ => src

/-- Modelled from the spec: the `Assign` write-combine helper for a vector
destination. -/
def AssignV (dst : Vec R) (req : OpReqType) (src : Vec R) : Vec R :=
  match req with
  | OpReqType.kAddTo => vecAdd dst src
  | _ => src

/-- Modelled from the spec: the `ShapeAssignCheck` rule
(`static_operator_common.h`, not part of this core): if the target shape
slot is unknown, fill it with the derived shape; if known, require equality;
on mismatch fail. -/
def ShapeAssignCheck (target derived : TShape) : Option TShape :=
  if target = unknownShape then some derived
  else if target = derived then some target
  else none

/-! ## `FullyConnectOp` (runtime operator) -/

/-- Embedding of `FullyConnectOp::Forward`.  Slot conventions: inputs
`0 = data, 1 = weight, 2 = bias (if present)`; outputs `0 = result`.
Returns the new output-buffer list, or `none` on a failed check. -/
def Forward (p : Param) (req : List OpReqType)
    (in_data out_data : List (TBlob R)) : Option (List (TBlob R)) :=
  match req[0]? with
  | none => none
  | some r0 =>
    if r0 ≠ OpReqType.kWriteTo then none
    else
      let expected := if p.no_bias = 0 then 3 else 2
      if in_data.length ≠ expected then none
      else if out_data.length ≠ 1 then none
      else
        let data := FlatTo2D (in_data.getD 0 default)
        match get2 (in_data.getD 1 default) with
        | none => none
        | some wmat =>
          let out1 := matMulNT data wmat
          if p.no_bias = 0 then
            match get1 (in_data.getD 2 default) with
            | none => none
            | some bias =>
              let out2 := matAdd out1 (repmat bias data.length)
              some [{ shape := (out_data.getD 0 default).shape,
                      data := out2.flatten }]
          else
            some [{ shape := (out_data.getD 0 default).shape,
                    data := out1.flatten }]

/-- Embedding of `FullyConnectOp::Backward`.  Returns the new input-gradient list
(`in_grad` slots `0 = data, 1 = weight, 2 = bias (if present)`), or `none`
on a failed check. -/
def Backward (p : Param) (out_grad in_data out_data : List (TBlob R))
    (req : List OpReqType) (in_grad : List (TBlob R)) :
    Option (List (TBlob R)) :=
  if out_grad.length ≠ 1 then none
  else
    let expected := if p.no_bias = 0 then 3 else 2
    if ¬ (in_data.length = expected ∧ in_grad.length = expected) then none
    else if req.length ≠ expected then none
    else
      let data := FlatTo2D (in_data.getD 0 default)
      match get2 (in_data.getD 1 default) with
      | none => none
      | some wmat =>
        let grad := FlatTo2D (out_grad.getD 0 default)
        if req.getD 1 OpReqType.kWriteTo = OpReqType.kWriteInplace then none
        else
          match get2 (in_grad.getD 1 default) with
          | none => none
          | some gwmat =>
            let gw := Assign gwmat (req.getD 1 OpReqType.kWriteTo)
              (matMulTN grad data)
            let ig1 := in_grad.set 1
              { in_grad.getD 1 default with data := gw.flatten }
            let withBias : Option (List (TBlob R)) :=
              if p.no_bias = 0 then
                match get1 (ig1.getD 2 default) with
                | none => none
                | some gbias =>
                  let gb := AssignV gbias (req.getD 2 OpReqType.kWriteTo)
                    (sum_rows grad)
                  some (ig1.set 2 { ig1.getD 2 default with data := gb })
              else some ig1
            match withBias with
            | none => none
            | some ig2 =>
              let gdata := FlatTo2D (ig2.getD 0 default)
              let gd := Assign gdata (req.getD 0 OpReqType.kWriteTo)
                (matMulNN grad wmat)
              some (ig2.set 0 { ig2.getD 0 default with data := gd.flatten })

/-! ## `FullyConnectSymbol` (symbolic descriptor) -/

/-- Embedding of `FullyConnectSymbol::InferShape`.  Takes the input and output shape
vectors; returns the updated vectors paired with the C++ boolean return
value, or `none` on a failed check. -/
def InferShape (p : Param) (in_shape out_shape : List TShape) :
    Option (List TShape × List TShape × Bool) :=
  let expected := if p.no_bias = 0 then 3 else 2
  if in_shape.length ≠ expected then none
  else if ¬ 0 < p.num_hidden then none
  else
    let dshape := in_shape.getD 0 []
    if dshape.length ≠ 4 then none
    else if dshape.length = 0 then none
    else
      match ShapeAssignCheck (in_shape.getD 1 [])
          [p.num_hidden, dshape.getD 3 0] with
      | none => none
      | some w0 =>
        let ins1 := in_shape.set 1 w0
        if p.no_bias = 0 then
          match ShapeAssignCheck (ins1.getD 2 []) [p.num_hidden] with
          | none => none
          | some b0 =>
            some (ins1.set 2 b0, [dshape.set 3 p.num_hidden], true)
        else
          some (ins1, [dshape.set 3 p.num_hidden], true)

/-- Embedding of `FullyConnectSymbol::ListArguments`. -/
def ListArguments (p : Param) : List String :=
  if p.no_bias = 0 then ["data", "weight", "bias"] else ["data", "weight"]

/-- Embedding of `FullyConnectSymbol::DeclareBackwardDependency`: returns
`{out_grad[kOut], in_data[kData], in_data[kWeight]}`. -/
def DeclareBackwardDependency (out_grad in_data out_data : List Int) :
    List Int :=
  [out_grad.getD 0 0, in_data.getD 0 0, in_data.getD 1 0]

/-- Embedding of `FullyConnectSymbol::BackwardInplaceOption`: declares that the data
gradient may be written in place over the data input. -/
def BackwardInplaceOption (out_grad in_data out_data in_grad : List Int) :
    List (Int × Int) :=
  [(in_grad.getD 0 0, in_data.getD 0 0)]

/-! ## Index-level matrix builders (specification side) -/

/-- The `r × c` matrix whose `(i, j)` entry is `f i j`. -/
def mkMat (r c : ℕ) (f : ℕ → ℕ → R) : Mat R :=
  (List.range r).map (fun i => (List.range c).map (fun j => f i j))

/-- The vector of length `n` whose `j`-th entry is `f j`. -/
def mkVec (n : ℕ) (f : ℕ → R) : Vec R :=
  (List.range n).map f

/-- How a write mode combines an old destination entry with a computed
entry: `AccumulateAdd` adds, the other modes replace. -/
def specCombine (req : OpReqType) (old new : R) : R :=
  match req with
  | OpReqType.kAddTo => old + new
  | _ => new

/-! ## Helper lemmas about the list-level operations -/

theorem zipWith_map_map {α β γ ι : Type} (f : α → β → γ) (g : ι → α)
    (h : ι → β) (l : List ι) :
    List.zipWith f (l.map g) (l.map h) = l.map (fun i => f (g i) (h i)) := by
  simp [List.zipWith_map]

theorem getD_range_map {α : Type} (g : ℕ → α) (d : α) {n j : ℕ} (h : j < n) :
    ((List.range n).map g).getD j d = g j := by
  have hl : j < ((List.range n).map g).length := by simpa using h
  rw [List.getD_eq_getElem _ d hl]
  simp

theorem headD_range_map {α : Type} (g : ℕ → α) (d : α) {n : ℕ} (h : 0 < n) :
    ((List.range n).map g).headD d = g 0 := by
  obtain ⟨m, rfl⟩ : ∃ m, n = m + 1 := ⟨n - 1, by omega⟩
  rw [List.range_succ_eq_map]
  simp

theorem zipWith_replicate_len {α β γ : Type} (f : α → β → γ) (v : β) :
    ∀ l : List α,
      List.zipWith f l (List.replicate l.length v) = l.map (fun a => f a v)
  | [] => rfl
  | a :: l => by
    simp [List.replicate_succ, zipWith_replicate_len f v l]

theorem zipWith_replicate_of_len {α β γ : Type} (f : α → β → γ) (v : β)
    (l : List α) (n : ℕ) (h : l.length = n) :
    List.zipWith f l (List.replicate n v) = l.map (fun a => f a v) := by
  subst h
  exact zipWith_replicate_len f v l

theorem vdot_range (g h : ℕ → R) (n : ℕ) :
    vdot ((List.range n).map g) ((List.range n).map h) =
      ((List.range n).map (fun k => g k * h k)).sum := by
  unfold vdot
  rw [zipWith_map_map]

theorem length_mkMat (r c : ℕ) (f : ℕ → ℕ → R) : (mkMat r c f).length = r := by
  simp [mkMat]

theorem matMulNT_mkMat (b f h : ℕ) (D W : ℕ → ℕ → R) :
    matMulNT (mkMat b f D) (mkMat h f W) =
      mkMat b h (fun i j => ((List.range f).map (fun k => D i k * W j k)).sum) := by
  simp only [matMulNT, mkMat, List.map_map, Function.comp]
  refine List.map_congr_left (fun i _ => ?_)
  refine List.map_congr_left (fun j _ => ?_)
  exact vdot_range (D i) (W j) f

theorem matMulTN_mkMat (b h f : ℕ) (hb : 0 < b) (G D : ℕ → ℕ → R) :
    matMulTN (mkMat b h G) (mkMat b f D) =
      mkMat h f (fun j k => ((List.range b).map (fun i => G i j * D i k)).sum) := by
  unfold matMulTN mkMat
  rw [headD_range_map _ _ hb, headD_range_map _ _ hb]
  simp only [List.length_map, List.length_range, zipWith_map_map]
  refine List.map_congr_left (fun j hj => ?_)
  refine List.map_congr_left (fun k hk => ?_)
  refine congrArg List.sum ?_
  refine List.map_congr_left (fun i _ => ?_)
  rw [getD_range_map _ _ (List.mem_range.mp hj),
      getD_range_map _ _ (List.mem_range.mp hk)]

theorem matMulNN_mkMat (b h f : ℕ) (hh : 0 < h) (G W : ℕ → ℕ → R) :
    matMulNN (mkMat b h G) (mkMat h f W) =
      mkMat b f (fun i k => ((List.range h).map (fun j => G i j * W j k)).sum) := by
  unfold matMulNN mkMat
  rw [headD_range_map _ _ hh]
  simp only [List.length_map, List.length_range, List.map_map, Function.comp]
  refine List.map_congr_left (fun i _ => ?_)
  refine List.map_congr_left (fun k hk => ?_)
  simp only [zipWith_map_map]
  refine congrArg List.sum ?_
  refine List.map_congr_left (fun j _ => ?_)
  simp only [getD_range_map _ _ (List.mem_range.mp hk)]

theorem sum_rows_mkMat (b h : ℕ) (hb : 0 < b) (G : ℕ → ℕ → R) :
    sum_rows (mkMat b h G) =
      mkVec h (fun j => ((List.range b).map (fun i => G i j)).sum) := by
  unfold sum_rows mkMat mkVec
  rw [headD_range_map _ _ hb]
  simp only [List.length_map, List.length_range, List.map_map, Function.comp]
  refine List.map_congr_left (fun j hj => ?_)
  refine congrArg List.sum ?_
  refine List.map_congr_left (fun i _ => ?_)
  simp only [Function.comp, getD_range_map _ _ (List.mem_range.mp hj)]

theorem matAdd_mkMat (r c : ℕ) (A B : ℕ → ℕ → R) :
    matAdd (mkMat r c A) (mkMat r c B) =
      mkMat r c (fun i j => A i j + B i j) := by
  unfold matAdd mkMat
  rw [zipWith_map_map]
  refine List.map_congr_left (fun i _ => ?_)
  exact zipWith_map_map _ _ _ _

theorem matAdd_repmat (b h : ℕ) (F : ℕ → ℕ → R) (Bv : ℕ → R) :
    matAdd (mkMat b h F) (repmat (mkVec h Bv) b) =
      mkMat b h (fun i j => F i j + Bv j) := by
  unfold matAdd mkMat repmat
  rw [zipWith_replicate_of_len _ _ _ _ (by simp)]
  simp only [List.map_map, Function.comp]
  refine List.map_congr_left (fun i _ => ?_)
  simp [mkVec, vecAdd, zipWith_map_map]

theorem Assign_mkMat (r c : ℕ) (req : OpReqType) (Dst Src : ℕ → ℕ → R) :
    Assign (mkMat r c Dst) req (mkMat r c Src) =
      mkMat r c (fun i j => specCombine req (Dst i j) (Src i j)) := by
  cases req <;> simp [Assign, specCombine, matAdd_mkMat]

theorem AssignV_mkVec (n : ℕ) (req : OpReqType) (Dst Src : ℕ → R) :
    AssignV (mkVec n Dst) req (mkVec n Src) =
      mkVec n (fun j => specCombine req (Dst j) (Src j)) := by
  cases req <;> simp [AssignV, specCombine, mkVec, vecAdd, zipWith_map_map]

/-! ## Claim theorems -/

/-- Claim C1: For every configuration and every well-formed call (input slots
`[data, weight, bias?]` — 3 slots with bias, 2 without — exactly one output
slot, output write mode `Overwrite`), `Forward` writes into the single
output buffer exactly `data · weightᵗ`, with `data` flattened to the 2-D
`[batch, inFeatures]` matrix, and when the layer has a bias additionally
adds `bias` broadcast across the batch dimension to every row; it writes no
other buffer (the returned output list holds the single rewritten output
slot, the inputs are untouched). -/
theorem forward_writes_affine_map (p : Param) (b f h : ℕ)
    (D W : ℕ → ℕ → R) (B : ℕ → R) (dB wB bB oB : TBlob R)
    (req : List OpReqType)
    (hreq : req[0]? = some OpReqType.kWriteTo)
    (hd : FlatTo2D dB = mkMat b f D)
    (hw : get2 wB = some (mkMat h f W))
    (hbias : p.no_bias = 0 → get1 bB = some (mkVec h B)) :
    Forward p req (if p.no_bias = 0 then [dB, wB, bB] else [dB, wB]) [oB] =
      some [{ shape := oB.shape,
              data := (mkMat b h (fun i j =>
                ((List.range f).map (fun k => D i k * W j k)).sum +
                if p.no_bias = 0 then B j else 0)).flatten }] := by
  by_cases hnb : p.no_bias = 0
  · simp only [Forward, hreq, hnb, if_true, ite_true, List.length_cons,
      List.length_nil, List.getD_cons_zero, List.getD_cons_succ]
    rw [hd, hw, hbias hnb]
    simp only [length_mkMat, matMulNT_mkMat, matAdd_repmat]
    simp
  · simp only [Forward, hreq, hnb, if_false, ite_false, List.length_cons,
      List.length_nil, List.getD_cons_zero, List.getD_cons_succ]
    rw [hd, hw]
    simp only [matMulNT_mkMat]
    simp [hnb]

/-- Witness for `forward_writes_affine_map`: the worked example of spec §8
(`data = [[1,2,3],[4,5,6]]`, `weight = [[1,0,0],[0,1,0]]`,
`bias = [10,20]`, output `[[11,22],[14,25]]`). -/
theorem forward_writes_affine_map_witness :
    Forward (R := ℤ) ⟨2, 0⟩ [OpReqType.kWriteTo]
      [⟨[2, 1, 1, 3], [1, 2, 3, 4, 5, 6]⟩,
       ⟨[2, 3], [1, 0, 0, 0, 1, 0]⟩,
       ⟨[2], [10, 20]⟩]
      [⟨[2, 1, 1, 2], [0, 0, 0, 0]⟩] =
    some [⟨[2, 1, 1, 2], [11, 22, 14, 25]⟩] := by
  have h := forward_writes_affine_map (R := ℤ) ⟨2, 0⟩ 2 3 2
    (fun i k => (([[1, 2, 3], [4, 5, 6]] : List (List ℤ)).getD i []).getD k 0)
    (fun j k => (([[1, 0, 0], [0, 1, 0]] : List (List ℤ)).getD j []).getD k 0)
    (fun j => ([10, 20] : List ℤ).getD j 0)
    ⟨[2, 1, 1, 3], [1, 2, 3, 4, 5, 6]⟩ ⟨[2, 3], [1, 0, 0, 0, 1, 0]⟩
    ⟨[2], [10, 20]⟩ ⟨[2, 1, 1, 2], [0, 0, 0, 0]⟩ [OpReqType.kWriteTo]
    (by decide) (by decide) (by decide) (fun _ => by decide)
  exact h.trans (by decide)

/-- Claim C4: Success of `InferShape` implies the data shape slot holds a
rank-4, fully known shape (in this shape representation a shape is unknown
exactly when it has no extents, so a rank-4 shape has all four extents
known). -/
theorem infershape_success_data_rank4 (p : Param) (ins outs : List TShape)
    (r : List TShape × List TShape × Bool)
    (h : InferShape p ins outs = some r) :
    (ins.getD 0 []).length = 4 ∧ ins.getD 0 [] ≠ unknownShape := by
  have h4 : (ins.getD 0 []).length = 4 := by
    simp only [InferShape] at h
    repeat' split at h
    all_goals simp_all
  refine ⟨h4, fun h0 => ?_⟩
  rw [h0] at h4
  simp [unknownShape] at h4

/-- Witness for `infershape_success_data_rank4` at a concrete successful
call. -/
theorem infershape_success_data_rank4_witness :
    ([[2, 1, 1, 3], [5, 3]] : List TShape).getD 0 [] = [2, 1, 1, 3] ∧
    (([[2, 1, 1, 3], [5, 3]] : List TShape).getD 0 []).length = 4 ∧
    ([[2, 1, 1, 3], [5, 3]] : List TShape).getD 0 [] ≠ unknownShape := by
  refine ⟨by decide, ?_⟩
  exact infershape_success_data_rank4 ⟨5, 1⟩ [[2, 1, 1, 3], [5, 3]] []
    ([[2, 1, 1, 3], [5, 3]], [[2, 1, 1, 5]], true) (by decide)

/-- Claim C6: `Backward` never reads the forward output values: two calls
that differ only in the `out_data` list produce identical results. -/
theorem backward_ignores_output_values (p : Param)
    (out_grad in_data : List (TBlob R)) (req : List OpReqType)
    (in_grad : List (TBlob R)) (od od' : List (TBlob R)) :
    Backward p out_grad in_data od req in_grad =
      Backward p out_grad in_data od' req in_grad := rfl

/-- Claim C7: `DeclareBackwardDependency` returns exactly
`[out_grad[kOut], in_data[kData], in_data[kWeight]]`, in that order, and
(given index lists that are disjoint from the forward-output indices, as
the graph engine guarantees) never includes a forward output-value
index. -/
theorem declare_backward_dependency_minimal (og id od : List Int)
    (hog : og ≠ []) (hid : 2 ≤ id.length)
    (h1 : ∀ x ∈ og, x ∉ od) (h2 : ∀ x ∈ id, x ∉ od) :
    DeclareBackwardDependency og id od =
      [og.getD 0 0, id.getD 0 0, id.getD 1 0] ∧
    ∀ x ∈ DeclareBackwardDependency og id od, x ∉ od := by
  refine ⟨rfl, ?_⟩
  have hog0 : 0 < og.length := List.length_pos.mpr hog
  have hid0 : 0 < id.length := by omega
  have hid1 : 1 < id.length := by omega
  intro x hx
  simp only [DeclareBackwardDependency, List.mem_cons,
    List.not_mem_nil, or_false] at hx
  rcases hx with rfl | rfl | rfl
  · exact h1 _ (by rw [List.getD_eq_getElem _ _ hog0]; exact List.getElem_mem hog0)
  · exact h2 _ (by rw [List.getD_eq_getElem _ _ hid0]; exact List.getElem_mem hid0)
  · exact h2 _ (by rw [List.getD_eq_getElem _ _ hid1]; exact List.getElem_mem hid1)

/-- Witness for `declare_backward_dependency_minimal` on concrete index
lists. -/
theorem declare_backward_dependency_minimal_witness :
    DeclareBackwardDependency [7] [3, 4] [9] = [7, 3, 4] ∧
    ∀ x ∈ DeclareBackwardDependency [7] [3, 4] [9], x ∉ ([9] : List Int) :=
  declare_backward_dependency_minimal [7] [3, 4] [9]
    (by decide) (by decide) (by decide) (by decide)

/-- Claim C10: Whenever `InferShape` returns normally (no fatal check), the
boolean it returns is `true`: no input makes it return `false`. -/
theorem infershape_never_returns_false (p : Param)
    (ins outs : List TShape) (a b : List TShape) (flag : Bool)
    (h : InferShape p ins outs = some (a, b, flag)) : flag = true := by
  simp only [InferShape] at h
  repeat' split at h
  all_goals simp_all

/-- Witness for `infershape_never_returns_false` at a concrete successful
call. -/
theorem infershape_never_returns_false_witness : true = true :=
  infershape_never_returns_false ⟨5, 1⟩ [[2, 1, 1, 3], [5, 3]] []
    [[2, 1, 1, 3], [5, 3]] [[2, 1, 1, 5]] true (by decide)

/-- Claim C5: Every call to `Forward` or `Backward` that violates the call
contract — a wrong slot count on a contract-constrained list, a
non-`Overwrite` write mode on the forward output, or `WriteInPlace` on the
weight-gradient slot — fails (returns `none`), so no output or gradient
buffer is written (the caller keeps the unchanged buffers). -/
theorem contract_violations_rejected (p : Param)
    (reqF : List OpReqType) (in_data out_data : List (TBlob R))
    (og id od ig : List (TBlob R)) (reqB : List OpReqType) :
    ((reqF[0]? ≠ some OpReqType.kWriteTo ∨
      in_data.length ≠ (if p.no_bias = 0 then 3 else 2) ∨
      out_data.length ≠ 1) →
      Forward p reqF in_data out_data = none) ∧
    ((og.length ≠ 1 ∨
      id.length ≠ (if p.no_bias = 0 then 3 else 2) ∨
      ig.length ≠ (if p.no_bias = 0 then 3 else 2) ∨
      reqB.length ≠ (if p.no_bias = 0 then 3 else 2) ∨
      reqB[1]? = some OpReqType.kWriteInplace) →
      Backward p og id od reqB ig = none) := by
  constructor
  · intro hviol
    rcases hviol with hv | hv | hv <;>
      (simp only [Forward]; repeat' split) <;>
      simp_all
  · intro hviol
    rcases hviol with hv | hv | hv | hv | hv <;>
      (simp only [Backward]; repeat' split) <;>
      simp_all [List.getD_eq_getElem?_getD]

/-- Witness for `contract_violations_rejected`: a forward call with an
`AccumulateAdd` output mode and a backward call with `WriteInPlace` on the
weight-gradient slot are both rejected. -/
theorem contract_violations_rejected_witness :
    Forward (R := ℤ) ⟨2, 0⟩ [OpReqType.kAddTo]
      [⟨[2, 1, 1, 3], [1, 2, 3, 4, 5, 6]⟩, ⟨[2, 3], [1, 0, 0, 0, 1, 0]⟩,
       ⟨[2], [10, 20]⟩] [⟨[2, 1, 1, 2], [0, 0, 0, 0]⟩] = none ∧
    Backward (R := ℤ) ⟨2, 0⟩ [⟨[2, 1, 1, 2], [1, 1, 1, 1]⟩]
      [⟨[2, 1, 1, 3], [1, 2, 3, 4, 5, 6]⟩, ⟨[2, 3], [1, 0, 0, 0, 1, 0]⟩,
       ⟨[2], [10, 20]⟩] []
      [OpReqType.kWriteTo, OpReqType.kWriteInplace, OpReqType.kWriteTo]
      [⟨[2, 1, 1, 3], [0, 0, 0, 0, 0, 0]⟩, ⟨[2, 3], [0, 0, 0, 0, 0, 0]⟩,
       ⟨[2], [0, 0]⟩] = none := by
  constructor
  · exact (contract_violations_rejected ⟨2, 0⟩ [OpReqType.kAddTo]
      [⟨[2, 1, 1, 3], [1, 2, 3, 4, 5, 6]⟩, ⟨[2, 3], [1, 0, 0, 0, 1, 0]⟩,
       ⟨[2], [10, 20]⟩] [⟨[2, 1, 1, 2], [0, 0, 0, 0]⟩]
      [] [] [] [] []).1 (Or.inl (by decide))
  · exact (contract_violations_rejected (R := ℤ) ⟨2, 0⟩ [] [] []
      [⟨[2, 1, 1, 2], [1, 1, 1, 1]⟩]
      [⟨[2, 1, 1, 3], [1, 2, 3, 4, 5, 6]⟩, ⟨[2, 3], [1, 0, 0, 0, 1, 0]⟩,
       ⟨[2], [10, 20]⟩] []
      [⟨[2, 1, 1, 3], [0, 0, 0, 0, 0, 0]⟩, ⟨[2, 3], [0, 0, 0, 0, 0, 0]⟩,
       ⟨[2], [0, 0]⟩]
      [OpReqType.kWriteTo, OpReqType.kWriteInplace, OpReqType.kWriteTo]).2
      (Or.inr (Or.inr (Or.inr (Or.inr (by decide)))))

/-- Claim C3: For `hiddenUnits > 0` and an input shape vector of the required
slot count whose data slot is a known rank-4 shape `[b, x, y, f]`:
`InferShape` assigns the weight slot `[hiddenUnits, f]` and (if biased) the
bias slot `[hiddenUnits]` by the fill-or-verify rule — succeeding with the
filled vector and exactly one output shape (the data shape with its last
extent replaced by `hiddenUnits`) when each given slot is unknown or equal
to the derived shape, and failing on any mismatch. -/
theorem infershape_fill_or_verify (p : Param) (b x y f : ℕ)
    (w bsh : TShape) (outs : List TShape) (hh : 0 < p.num_hidden) :
    (((w = unknownShape ∨ w = [p.num_hidden, f]) ∧
      (p.no_bias = 0 → bsh = unknownShape ∨ bsh = [p.num_hidden])) →
      InferShape p
        (if p.no_bias = 0 then [[b, x, y, f], w, bsh] else [[b, x, y, f], w])
        outs =
      some ((if p.no_bias = 0
             then [[b, x, y, f], [p.num_hidden, f], [p.num_hidden]]
             else [[b, x, y, f], [p.num_hidden, f]]),
            [[b, x, y, p.num_hidden]], true)) ∧
    ((¬ (w = unknownShape ∨ w = [p.num_hidden, f]) ∨
      (p.no_bias = 0 ∧ ¬ (bsh = unknownShape ∨ bsh = [p.num_hidden]))) →
      InferShape p
        (if p.no_bias = 0 then [[b, x, y, f], w, bsh] else [[b, x, y, f], w])
        outs = none) := by
  by_cases hnb : p.no_bias = 0
  · constructor
    · rintro ⟨hwOK, hbOK⟩
      rcases hwOK with rfl | rfl <;> rcases hbOK hnb with rfl | rfl <;>
        simp [InferShape, ShapeAssignCheck, unknownShape, hnb, hh]
    · intro hbad
      rcases hbad with hw | ⟨-, hbsh⟩
      · push_neg at hw
        obtain ⟨hw1, hw2⟩ := hw
        simp only [unknownShape] at hw1
        simp [InferShape, ShapeAssignCheck, unknownShape, hnb, hh, hw1, hw2]
      · push_neg at hbsh
        rcases hsac : ShapeAssignCheck w [p.num_hidden, f] with - | w0 <;>
          simp [InferShape, ShapeAssignCheck, unknownShape, hnb, hh, hsac,
            hbsh.1, hbsh.2] <;>
          simp_all [ShapeAssignCheck, unknownShape]
  · constructor
    · rintro ⟨hwOK, -⟩
      rcases hwOK with rfl | rfl <;>
        simp [InferShape, ShapeAssignCheck, unknownShape, hnb, hh]
    · intro hbad
      rcases hbad with hw | ⟨hnb0, -⟩
      · push_neg at hw
        obtain ⟨hw1, hw2⟩ := hw
        simp only [unknownShape] at hw1
        simp [InferShape, ShapeAssignCheck, unknownShape, hnb, hh, hw1, hw2]
      · exact absurd hnb0 hnb

/-- Witness for `infershape_fill_or_verify`: filling unknown weight and
bias slots for `hiddenUnits = 2`, data shape `[2,1,1,3]`. -/
theorem infershape_fill_or_verify_witness :
    InferShape ⟨2, 0⟩ [[2, 1, 1, 3], unknownShape, unknownShape] [] =
      some ([[2, 1, 1, 3], [2, 3], [2]], [[2, 1, 1, 2]], true) := by
  have h := (infershape_fill_or_verify ⟨2, 0⟩ 2 1 1 3 unknownShape
    unknownShape [] (by decide)).1 (by decide)
  exact h.trans (by decide)

/-- Claim C8: `InferShape` is idempotent: from `hiddenUnits > 0` and data
shape `[b,1,1,f]` it produces weight `[hiddenUnits, f]`, bias
`[hiddenUnits]` (if biased) and output `[b,1,1,hiddenUnits]`, and running
it again on the produced shape vectors succeeds with exactly the same
shapes. -/
theorem infershape_idempotent (p : Param) (b f : ℕ)
    (hh : 0 < p.num_hidden) (outs0 : List TShape) :
    InferShape p
      (if p.no_bias = 0
       then [[b, 1, 1, f], unknownShape, unknownShape]
       else [[b, 1, 1, f], unknownShape]) outs0 =
      some ((if p.no_bias = 0
             then [[b, 1, 1, f], [p.num_hidden, f], [p.num_hidden]]
             else [[b, 1, 1, f], [p.num_hidden, f]]),
            [[b, 1, 1, p.num_hidden]], true) ∧
    InferShape p
      (if p.no_bias = 0
       then [[b, 1, 1, f], [p.num_hidden, f], [p.num_hidden]]
       else [[b, 1, 1, f], [p.num_hidden, f]]) [[b, 1, 1, p.num_hidden]] =
      some ((if p.no_bias = 0
             then [[b, 1, 1, f], [p.num_hidden, f], [p.num_hidden]]
             else [[b, 1, 1, f], [p.num_hidden, f]]),
            [[b, 1, 1, p.num_hidden]], true) := by
  by_cases hnb : p.no_bias = 0 <;>
    exact ⟨by simp [InferShape, ShapeAssignCheck, unknownShape, hnb, hh],
           by simp [InferShape, ShapeAssignCheck, unknownShape, hnb, hh]⟩

/-- Witness for `infershape_idempotent` at `hiddenUnits = 2`, data shape
`[2,1,1,3]`, biased. -/
theorem infershape_idempotent_witness :
    InferShape ⟨2, 0⟩ [[2, 1, 1, 3], unknownShape, unknownShape] [] =
      some ([[2, 1, 1, 3], [2, 3], [2]], [[2, 1, 1, 2]], true) ∧
    InferShape ⟨2, 0⟩ [[2, 1, 1, 3], [2, 3], [2]] [[2, 1, 1, 2]] =
      some ([[2, 1, 1, 3], [2, 3], [2]], [[2, 1, 1, 2]], true) := by
  have h := infershape_idempotent ⟨2, 0⟩ 2 3 (by decide) []
  exact ⟨h.1.trans (by decide), h.2.trans (by decide)⟩

/-- Facts forced by a successful `InferShape` run: the input slot count,
the rank of the data shape, and positivity of the hidden-unit count. -/
theorem infershape_success_preconds (p : Param) (ins outs : List TShape)
    (r : List TShape × List TShape × Bool)
    (h : InferShape p ins outs = some r) :
    ins.length = (if p.no_bias = 0 then 3 else 2) ∧
    (ins.getD 0 []).length = 4 ∧ 0 < p.num_hidden := by
  simp only [InferShape] at h
  repeat' split at h
  all_goals try simp_all
  all_goals omega

/-- A successful `ShapeAssignCheck` against an already-known target leaves
the target unchanged. -/
theorem ShapeAssignCheck_known {t d r : TShape} (ht : t ≠ unknownShape)
    (h : ShapeAssignCheck t d = some r) : r = t := by
  unfold ShapeAssignCheck at h
  rw [if_neg ht] at h
  by_cases htd : t = d
  · rw [if_pos htd] at h
    exact (Option.some.inj h).symm
  · rw [if_neg htd] at h
    cases h

/-- Counterexample to C9 as stated: a caller-supplied, fully known output
shape `[9,9,9,9]` conflicts with the derived output shape `[2,1,1,5]`, yet
`InferShape` succeeds and overwrites it instead of failing. -/
theorem infershape_overwrites_known_output :
    InferShape ⟨5, 1⟩ [[2, 1, 1, 3], [5, 3]] [[9, 9, 9, 9]] =
      some ([[2, 1, 1, 3], [5, 3]], [[2, 1, 1, 5]], true) := by decide

/-- Claim C9, amended: On success `InferShape` never mutates the data slot
and never overwrites a known weight or bias slot (a known slot that
conflicts with the derived shape makes it fail instead); the output shape
list, however, is unconditionally cleared and replaced by the single
derived output shape, ignoring any caller-supplied output shape. -/
theorem infershape_input_frame (p : Param) (ins outs ins2 outs2 : List TShape)
    (flag : Bool) (h : InferShape p ins outs = some (ins2, outs2, flag)) :
    ins2[0]? = ins[0]? ∧
    (∀ wsh, ins[1]? = some wsh → wsh ≠ unknownShape → ins2[1]? = some wsh) ∧
    (∀ bsh, p.no_bias = 0 → ins[2]? = some bsh → bsh ≠ unknownShape →
      ins2[2]? = some bsh) ∧
    outs2 = [(ins.getD 0 []).set 3 p.num_hidden] := by
  obtain ⟨hlen, h4, hh⟩ := infershape_success_preconds p ins outs _ h
  by_cases hnb : p.no_bias = 0
  · rw [hnb, if_pos rfl] at hlen
    rcases ins with _ | ⟨d, ins⟩; · simp at hlen
    rcases ins with _ | ⟨w, ins⟩; · simp at hlen
    rcases ins with _ | ⟨bs, ins⟩; · simp at hlen
    rcases ins with _ | ⟨e, ins⟩
    swap
    · simp at hlen
    simp only [List.getD_cons_zero] at h4
    simp [InferShape, hnb, h4, hh] at h
    split at h
    next heqw => exact Option.noConfusion h
    next w1 heqw =>
      split at h
      next heqb => exact Option.noConfusion h
      next b0 heqb =>
        simp only [List.set_cons_succ, List.set_cons_zero,
          Option.some.injEq, Prod.mk.injEq] at h
        obtain ⟨h1, h2, -⟩ := h
        subst h1
        subst h2
        refine ⟨by simp, ?_, ?_, by simp⟩
        · intro wsh hwsh hne
          simp only [List.getElem?_cons_succ, List.getElem?_cons_zero,
            Option.some.injEq] at hwsh
          subst hwsh
          have hw1 := ShapeAssignCheck_known hne heqw
          subst hw1
          simp
        · intro bsh hnb0 hbsh hne
          simp only [List.getElem?_cons_succ, List.getElem?_cons_zero,
            Option.some.injEq] at hbsh
          subst hbsh
          have hb0 := ShapeAssignCheck_known hne heqb
          subst hb0
          simp
  · rw [if_neg hnb] at hlen
    rcases ins with _ | ⟨d, ins⟩; · simp at hlen
    rcases ins with _ | ⟨w, ins⟩; · simp at hlen
    rcases ins with _ | ⟨e, ins⟩
    swap
    · simp at hlen
    simp only [List.getD_cons_zero] at h4
    simp [InferShape, hnb, h4, hh] at h
    split at h
    next heqw => exact Option.noConfusion h
    next w1 heqw =>
      simp only [List.set_cons_succ, List.set_cons_zero,
        Option.some.injEq, Prod.mk.injEq] at h
      obtain ⟨h1, h2, -⟩ := h
      subst h1
      subst h2
      refine ⟨by simp, ?_, ?_, by simp⟩
      · intro wsh hwsh hne
        simp only [List.getElem?_cons_succ, List.getElem?_cons_zero,
          Option.some.injEq] at hwsh
        subst hwsh
        have hw1 := ShapeAssignCheck_known hne heqw
        subst hw1
        simp
      · intro bsh hnb0 _ _
        exact absurd hnb0 hnb

/-- Witness for `infershape_input_frame` at a concrete successful biased
call with all slots already known. -/
theorem infershape_input_frame_witness :
    ([[2, 1, 1, 3], [2, 3], [2]] : List TShape)[0]? =
      ([[2, 1, 1, 3], [2, 3], [2]] : List TShape)[0]? ∧
    (∀ wsh, ([[2, 1, 1, 3], [2, 3], [2]] : List TShape)[1]? = some wsh →
      wsh ≠ unknownShape →
      ([[2, 1, 1, 3], [2, 3], [2]] : List TShape)[1]? = some wsh) ∧
    (∀ bsh, (⟨2, 0⟩ : Param).no_bias = 0 →
      ([[2, 1, 1, 3], [2, 3], [2]] : List TShape)[2]? = some bsh →
      bsh ≠ unknownShape →
      ([[2, 1, 1, 3], [2, 3], [2]] : List TShape)[2]? = some bsh) ∧
    ([[2, 1, 1, 2]] : List TShape) =
      [(([[2, 1, 1, 3], [2, 3], [2]] : List TShape).getD 0 []).set 3
        (⟨2, 0⟩ : Param).num_hidden] :=
  infershape_input_frame ⟨2, 0⟩ [[2, 1, 1, 3], [2, 3], [2]] [[2, 1, 1, 2]]
    [[2, 1, 1, 3], [2, 3], [2]] [[2, 1, 1, 2]] true (by decide)

/-- Claim C2: For every well-formed `Backward` call (one output gradient,
input-value / input-gradient / write-mode lists of length 3 with bias or 2
without, weight-gradient write mode not `WriteInPlace`), `Backward` writes
`gradWeight = outputGradientᵗ · data` into the weight-gradient slot,
`gradBias = columnSumAcrossBatch(outputGradient)` into the bias-gradient
slot (only when the layer has a bias), and
`gradData = outputGradient · weight` into the data-gradient slot, each
combined with the destination per that slot's write mode (`Overwrite`
replaces, `AccumulateAdd` adds). -/
theorem backward_writes_gradients (p : Param) (b f h : ℕ)
    (hb : 0 < b) (hh : 0 < h)
    (G D W GW0 GD0 : ℕ → ℕ → R) (B0 : ℕ → R)
    (gB dB wB bB gdB gwB gbB : TBlob R) (out_data : List (TBlob R))
    (rD rW rB : OpReqType) (hrW : rW ≠ OpReqType.kWriteInplace)
    (hg : FlatTo2D gB = mkMat b h G)
    (hd : FlatTo2D dB = mkMat b f D)
    (hw : get2 wB = some (mkMat h f W))
    (hgw : get2 gwB = some (mkMat h f GW0))
    (hgd : FlatTo2D gdB = mkMat b f GD0)
    (hgb : p.no_bias = 0 → get1 gbB = some (mkVec h B0)) :
    Backward p [gB]
      (if p.no_bias = 0 then [dB, wB, bB] else [dB, wB]) out_data
      (if p.no_bias = 0 then [rD, rW, rB] else [rD, rW])
      (if p.no_bias = 0 then [gdB, gwB, gbB] else [gdB, gwB]) =
      some (if p.no_bias = 0 then
        [{ gdB with data := (mkMat b f (fun i k => specCombine rD (GD0 i k)
            (((List.range h).map (fun j => G i j * W j k)).sum))).flatten },
         { gwB with data := (mkMat h f (fun j k => specCombine rW (GW0 j k)
            (((List.range b).map (fun i => G i j * D i k)).sum))).flatten },
         { gbB with data := mkVec h (fun j => specCombine rB (B0 j)
            (((List.range b).map (fun i => G i j)).sum)) }]
      else
        [{ gdB with data := (mkMat b f (fun i k => specCombine rD (GD0 i k)
            (((List.range h).map (fun j => G i j * W j k)).sum))).flatten },
         { gwB with data := (mkMat h f (fun j k => specCombine rW (GW0 j k)
            (((List.range b).map (fun i => G i j * D i k)).sum))).flatten }]) := by
  by_cases hnb : p.no_bias = 0
  · simp only [hnb, ite_true]
    simp only [Backward, hnb, List.length_cons, List.length_nil,
      List.getD_cons_zero, List.getD_cons_succ]
    rw [hd, hw, hg, hgw]
    simp [hrW, hgd, hgb hnb, matMulTN_mkMat b h f hb,
      matMulNN_mkMat b h f hh, sum_rows_mkMat b h hb, Assign_mkMat,
      AssignV_mkVec]
  · simp only [hnb, ite_false]
    simp only [Backward, hnb, List.length_cons, List.length_nil,
      List.getD_cons_zero, List.getD_cons_succ]
    rw [hd, hw, hg, hgw]
    simp [hnb, hrW, hgd, matMulTN_mkMat b h f hb, matMulNN_mkMat b h f hh,
      Assign_mkMat]

/-- Witness for `backward_writes_gradients`: batch 2, 3 input features,
2 hidden units, all-ones output gradient, `AccumulateAdd` on the weight
gradient and `Overwrite` on the data and bias gradients. -/
theorem backward_writes_gradients_witness :
    Backward (R := ℤ) ⟨2, 0⟩ [⟨[2, 1, 1, 2], [1, 1, 1, 1]⟩]
      [⟨[2, 1, 1, 3], [1, 2, 3, 4, 5, 6]⟩, ⟨[2, 3], [1, 0, 0, 0, 1, 0]⟩,
       ⟨[2], [10, 20]⟩] []
      [OpReqType.kWriteTo, OpReqType.kAddTo, OpReqType.kWriteTo]
      [⟨[2, 1, 1, 3], [0, 0, 0, 0, 0, 0]⟩,
       ⟨[2, 3], [100, 100, 100, 100, 100, 100]⟩, ⟨[2], [7, 7]⟩] =
    some [⟨[2, 1, 1, 3], [1, 1, 0, 1, 1, 0]⟩,
          ⟨[2, 3], [105, 107, 109, 105, 107, 109]⟩,
          ⟨[2], [2, 2]⟩] := by
  have h := backward_writes_gradients (R := ℤ) ⟨2, 0⟩ 2 3 2
    (by decide) (by decide)
    (fun i j => (([[1, 1], [1, 1]] : List (List ℤ)).getD i []).getD j 0)
    (fun i k => (([[1, 2, 3], [4, 5, 6]] : List (List ℤ)).getD i []).getD k 0)
    (fun j k => (([[1, 0, 0], [0, 1, 0]] : List (List ℤ)).getD j []).getD k 0)
    (fun j k => ((100 : ℤ)))
    (fun i k => ((0 : ℤ)))
    (fun j => ([7, 7] : List ℤ).getD j 0)
    ⟨[2, 1, 1, 2], [1, 1, 1, 1]⟩ ⟨[2, 1, 1, 3], [1, 2, 3, 4, 5, 6]⟩
    ⟨[2, 3], [1, 0, 0, 0, 1, 0]⟩ ⟨[2], [10, 20]⟩
    ⟨[2, 1, 1, 3], [0, 0, 0, 0, 0, 0]⟩
    ⟨[2, 3], [100, 100, 100, 100, 100, 100]⟩ ⟨[2], [7, 7]⟩ []
    OpReqType.kWriteTo OpReqType.kAddTo OpReqType.kWriteTo
    (by decide) (by decide) (by decide) (by decide) (by decide) (by decide)
    (fun _ => by decide)
  exact h.trans (by decide)

end MxNet
